import Mathlib

/-
  Verification of the PlannerDomValue / PlannerDomRoot JSON shim
  (src/ee/common/PlannerDomValue.h).

  The shim wraps a parsed JSON document (a jsoncpp Json::Value tree) and
  exposes typed accessors and navigation that either return a value or
  throw a SerializableEEException.  The jsoncpp primitives themselves
  (Json::Value, Json::Reader) are not part of the sources under
  verification, so they are modelled from the specification's data model
  (tags Null, Bool, Int32, Int64, Double, String, Array, Object; an
  immutable tree; integer literals represented as 32-bit when they fit
  and as 64-bit otherwise).  The shim methods (asInt, asInt64, asDouble,
  asBool, asStr, hasKey, hasNonNullKey, valueForKey, arrayLen,
  valueAtIndex, PlannerDomRoot construction) are translated line by line
  from the header.  Doubles are modelled as rationals: the claims under
  study only depend on which conversions succeed, not on IEEE rounding.
-/

namespace VoltDom

/-- Modelled from the spec: a parsed JSON document is a tree of tagged
nodes: null, boolean, integer (32- or 64-bit according to magnitude,
carried here as an unbounded integer with the tag derived from the
value), floating point (modelled as a rational), string, ordered array,
ordered key-to-node object. -/
inductive Json where
  | null
  | bool (b : Bool)
  | int (n : Int)
  | double (q : Rat)
  | str (s : String)
  | array (elems : List Json)
  | object (members : List (String × Json))

/-- The eight node tags named by the spec's data model. -/
inductive JTag where
  | Null
  | Bool
  | Int32
  | Int64
  | Double
  | String
  | Array
  | Object
  deriving DecidableEq

/-- Whether an integer value lies in the signed 32-bit range. -/
def fitsInt32 (n : Int) : Bool :=
  decide (-2147483648 ≤ n) && decide (n ≤ 2147483647)

/-- Modelled from the spec: the tag of a node.  A JSON integer literal is
represented by the parser as a 32-bit integer when it fits and as a
64-bit integer otherwise. -/
def Json.tag : Json → JTag
  | .null => .Null
  | .bool _ => .Bool
  | .int n => if fitsInt32 n then .Int32 else .Int64
  | .double _ => .Double
  | .str _ => .String
  | .array _ => .Array
  | .object _ => .Object

/-- Modelled from the spec: Json::Value::isNull, true exactly on the JSON
null node. -/
def Json.isNull : Json → Bool
  | .null => true
  | _ => false

/-- Modelled from the spec: Json::Value::isBool. -/
def Json.isBool : Json → Bool
  | .bool _ => true
  | _ => false

/-- Modelled from the spec: Json::Value::isInt, true exactly on integer
nodes whose value lies in the 32-bit range (tag Int32). -/
def Json.isInt : Json → Bool
  | .int n => fitsInt32 n
  | _ => false

/-- Modelled from the spec: Json::Value::isInt64, true exactly on integer
nodes (tags Int32 and Int64); asInt64 accepts both and widens Int32. -/
def Json.isInt64 : Json → Bool
  | .int _ => true
  | _ => false

/-- Modelled from the spec: Json::Value::isDouble, true exactly on
floating-point nodes. -/
def Json.isDouble : Json → Bool
  | .double _ => true
  | _ => false

/-- Modelled from the spec: Json::Value::isString. -/
def Json.isString : Json → Bool
  | .str _ => true
  | _ => false

/-- Modelled from the spec: Json::Value::isArray. -/
def Json.isArray : Json → Bool
  | .array _ => true
  | _ => false

/-- Modelled from the spec: Json::Value::isObject. -/
def Json.isObject : Json → Bool
  | .object _ => true
  | _ => false

/-- Modelled from the spec: Json::Value::isMember, true iff the node is an
object and the key appears in it (its value may be null); never fails and
is false on non-object nodes. -/
def Json.isMember (v : Json) (k : String) : Bool :=
  match v with
  | .object ms => ms.any (fun p => p.1 == k)
  | _ => false

/-- Modelled from the spec: the object lookup performed by
Json::Value::operatorIndex on a key.  The spec's invariant says the tree
is never mutated, so the lookup is a pure read: the child node when the
node is an object containing the key, and the JSON null value otherwise
(absent key, or non-object node). -/
def Json.lookupKey (v : Json) (k : String) : Json :=
  match v with
  | .object ms =>
      match ms.find? (fun p => p.1 == k) with
      | some p => p.2
      | none => .null
  | _ => .null

/-- Modelled from the spec: Json::Value::size, the element count of an
array node. -/
def Json.size : Json → Nat
  | .array es => es.length
  | _ => 0

/-- Modelled from the spec: Json::Value::asInt, the stored integer;
only consulted by the shim after an isInt check. -/
def Json.asInt : Json → Int
  | .int n => n
  | _ => 0

/-- Modelled from the spec: Json::Value::asInt64; only consulted by the
shim after an isInt64 check. -/
def Json.asInt64 : Json → Int
  | .int n => n
  | _ => 0

/-- Modelled from the spec: Json::Value::asDouble; only consulted by the
shim after an isDouble check. -/
def Json.asDouble : Json → Rat
  | .double q => q
  | _ => 0

/-- Modelled from the spec: Json::Value::asBool; only consulted by the
shim after an isBool check. -/
def Json.asBool : Json → Bool
  | .bool b => b
  | _ => false

/-- Modelled from the spec: Json::Value::asString; only consulted by the
shim after an isString check. -/
def Json.asString : Json → String
  | .str s => s
  | _ => ""

/-- The error taxonomy of the spec.  The source throws a single
SerializableEEException; its message strings distinguish the cases listed
here.  indexOutOfRange appears in the taxonomy only for the re-architected
design: the source never raises it. -/
inductive EEException where
  | parseError
  | typeMismatch
  | missingKey
  | notArray
  | indexOutOfRange
  deriving DecidableEq

/-- Outcome of an array indexing operation.  Besides returning a node or
throwing, the spec (design note on valueAtIndex) says the source performs
no bounds check and the behavior on an out-of-range index is
undefined/unsafe; that outcome is the explicit marker unspecified, distinct
from every error. -/
inductive DomResult (α : Type) where
  | ok (a : α)
  | err (e : EEException)
  | unspecified

namespace PlannerDomValue

/-- PlannerDomValue::asInt: throws when the node is null or not a 32-bit
integer, otherwise returns the integer. -/
def asInt (v : Json) : Except EEException Int :=
  if v.isNull || !v.isInt then .error .typeMismatch
  else .ok v.asInt

/-- PlannerDomValue::asInt64: throws on null; returns the value on an
Int64 node; widens an Int32 node; throws on everything else. -/
def asInt64 (v : Json) : Except EEException Int :=
  if v.isNull then .error .typeMismatch
  else if v.isInt64 then .ok v.asInt64
  else if v.isInt then .ok v.asInt
  else .error .typeMismatch

/-- PlannerDomValue::asDouble: throws on null; returns a double node's
value; converts Int32 and Int64 nodes; throws on everything else. -/
def asDouble (v : Json) : Except EEException Rat :=
  if v.isNull then .error .typeMismatch
  else if v.isDouble then .ok v.asDouble
  else if v.isInt then .ok (v.asInt : Rat)
  else if v.isInt64 then .ok (v.asInt64 : Rat)
  else .error .typeMismatch

/-- PlannerDomValue::asBool: throws when the node is null or not a bool. -/
def asBool (v : Json) : Except EEException Bool :=
  if v.isNull || !v.isBool then .error .typeMismatch
  else .ok v.asBool

/-- PlannerDomValue::asStr: throws when the node is null or not a string. -/
def asStr (v : Json) : Except EEException String :=
  if v.isNull || !v.isString then .error .typeMismatch
  else .ok v.asString

/-- PlannerDomValue::hasKey: delegates to isMember. -/
def hasKey (v : Json) (k : String) : Bool :=
  v.isMember k

/-- PlannerDomValue::hasNonNullKey: false when hasKey is false, otherwise
looks the key up and tests the child for null. -/
def hasNonNullKey (v : Json) (k : String) : Bool :=
  if !hasKey v k then false
  else !(v.lookupKey k).isNull

/-- PlannerDomValue::valueForKey: looks the key up; throws MissingKey when
the result is the JSON null (key absent, or present with a null value),
otherwise returns a view of the child. -/
def valueForKey (v : Json) (k : String) : Except EEException Json :=
  let value := v.lookupKey k
  if value.isNull then .error .missingKey
  else .ok value

/-- PlannerDomValue::arrayLen: throws NotArray on a non-array node,
otherwise returns the element count. -/
def arrayLen (v : Json) : Except EEException Nat :=
  if !v.isArray then .error .notArray
  else .ok v.size

/-- PlannerDomValue::valueAtIndex: throws NotArray on a non-array node;
on an array it performs no bounds check before indexing, so an in-range
index returns a view of that element and an out-of-range index is the
undefined/unsafe outcome flagged by the spec. -/
def valueAtIndex (v : Json) (i : Int) : DomResult Json :=
  match v with
  | .array es =>
      if h : 0 ≤ i ∧ i.toNat < es.length then .ok (es.get ⟨i.toNat, h.2⟩)
      else .unspecified
  | _ => .err .notArray

end PlannerDomValue

/-- PlannerDomRoot: owns the parsed document. -/
structure PlannerDomRoot where
  m_document : Json

namespace PlannerDomRoot

/-- PlannerDomRoot::PlannerDomRoot: runs the external JSON parser (here an
arbitrary parameter returning some tree on success and none on syntactic
failure, since the parser is an external collaborator) and throws
ParseError when parsing fails; on success the fully materialized tree is
owned by the root object. -/
def construct (parse : String → Option Json) (jsonStr : String) :
    Except EEException PlannerDomRoot :=
  match parse jsonStr with
  | none => .error .parseError
  | some doc => .ok ⟨doc⟩

/-- PlannerDomRoot::rootObject: a view over the whole document; total,
it never fails. -/
def rootObject (r : PlannerDomRoot) : Json :=
  r.m_document

/-- PlannerDomRoot::isNull: whether the parsed root is the JSON null. -/
def isNull (r : PlannerDomRoot) : Bool :=
  r.m_document.isNull

end PlannerDomRoot

/-- The ten NodeView operations, reified so that statements can quantify
over every operation. -/
inductive DomOp where
  | opAsInt
  | opAsInt64
  | opAsDouble
  | opAsBool
  | opAsStr
  | opHasKey (k : String)
  | opHasNonNullKey (k : String)
  | opValueForKey (k : String)
  | opArrayLen
  | opValueAtIndex (i : Int)

/-- What one NodeView operation can produce: a typed value, a child view,
a thrown exception, or the undefined outcome of an unchecked out-of-range
index. -/
inductive DomOutcome where
  | gotInt (n : Int)
  | gotRat (q : Rat)
  | gotBool (b : Bool)
  | gotStr (s : String)
  | gotNode (v : Json)
  | gotLen (n : Nat)
  | threw (e : EEException)
  | unspecified

/-- Repackages an Except result as a DomOutcome. -/
def liftExcept {α : Type} (f : α → DomOutcome) : Except EEException α → DomOutcome
  | .ok a => f a
  | .error e => .threw e

/-- Repackages a DomResult as a DomOutcome. -/
def liftDomResult : DomResult Json → DomOutcome
  | .ok c => .gotNode c
  | .err e => .threw e
  | .unspecified => .unspecified

/-- Runs one NodeView operation against the node it references and
returns the outcome together with the node as it stands after the call.
Modelled from the spec: once constructed the tree is never mutated, so
every operation hands the node back unchanged. -/
def runOp (v : Json) : DomOp → DomOutcome × Json
  | .opAsInt => (liftExcept .gotInt (PlannerDomValue.asInt v), v)
  | .opAsInt64 => (liftExcept .gotInt (PlannerDomValue.asInt64 v), v)
  | .opAsDouble => (liftExcept .gotRat (PlannerDomValue.asDouble v), v)
  | .opAsBool => (liftExcept .gotBool (PlannerDomValue.asBool v), v)
  | .opAsStr => (liftExcept .gotStr (PlannerDomValue.asStr v), v)
  | .opHasKey k => (.gotBool (PlannerDomValue.hasKey v k), v)
  | .opHasNonNullKey k => (.gotBool (PlannerDomValue.hasNonNullKey v k), v)
  | .opValueForKey k => (liftExcept .gotNode (PlannerDomValue.valueForKey v k), v)
  | .opArrayLen => (liftExcept .gotLen (PlannerDomValue.arrayLen v), v)
  | .opValueAtIndex i => (liftDomResult (PlannerDomValue.valueAtIndex v i), v)

namespace PlannerDomValue

/-- When hasKey is false the object lookup produces the JSON null. -/
lemma lookupKey_eq_null_of_hasKey_false (v : Json) (k : String)
    (h : hasKey v k = false) : v.lookupKey k = .null := by
  cases v <;> simp only [Json.lookupKey]
  case object ms =>
    simp only [hasKey, Json.isMember, List.any_eq_false] at h
    rw [List.find?_eq_none.mpr]
    intro p hp
    exact h p hp

/-- hasNonNullKey coincides with testing the looked-up child for null. -/
lemma hasNonNullKey_eq (v : Json) (k : String) :
    hasNonNullKey v k = !(v.lookupKey k).isNull := by
  unfold hasNonNullKey
  cases hk : hasKey v k with
  | false => simp [lookupKey_eq_null_of_hasKey_false v k hk, Json.isNull]
  | true => simp

end PlannerDomValue

/-- Claim C1: for every tree node and every NodeView operation (asInt,
asInt64, asDouble, asBool, asStr, hasKey, hasNonNullKey, valueForKey,
arrayLen, valueAtIndex), running the operation hands the node back
unchanged: the tree is never mutated, whether the operation succeeds or
fails. -/
theorem runOp_leaves_tree_unchanged (v : Json) (op : DomOp) :
    (runOp v op).2 = v := by
  cases op <;> rfl

/-- Claim C4: asDouble succeeds on every node of tag Int32, Int64 or
Double (integers being converted to rationals exactly), and fails with
TypeMismatch on every node of tag String, Bool, Array, Object or Null. -/
theorem asDouble_by_tag (v : Json) :
    ((v.tag = .Int32 ∨ v.tag = .Int64 ∨ v.tag = .Double) →
      ∃ q, PlannerDomValue.asDouble v = .ok q) ∧
    (∀ n : Int, v = .int n → PlannerDomValue.asDouble v = .ok (n : Rat)) ∧
    ((v.tag = .String ∨ v.tag = .Bool ∨ v.tag = .Array ∨ v.tag = .Object ∨
      v.tag = .Null) →
      PlannerDomValue.asDouble v = .error .typeMismatch) := by
  cases v with
  | int n =>
    refine ⟨fun _ => ⟨(n : Rat), ?_⟩, fun m hm => ?_, fun h => ?_⟩
    · cases hf : fitsInt32 n <;>
        simp [PlannerDomValue.asDouble, Json.isNull, Json.isDouble, Json.isInt,
          Json.isInt64, Json.asInt, Json.asInt64, hf]
    · cases hm
      cases hf : fitsInt32 n <;>
        simp [PlannerDomValue.asDouble, Json.isNull, Json.isDouble, Json.isInt,
          Json.isInt64, Json.asInt, Json.asInt64, hf]
    · simp only [Json.tag] at h
      rcases h with h | h | h | h | h <;> split at h <;> simp_all
  | double q =>
    exact ⟨fun _ => ⟨q, rfl⟩, fun m hm => (by cases hm), fun h => (by
      simp [Json.tag] at h)⟩
  | null =>
    exact ⟨fun h => (by simp [Json.tag] at h), fun m hm => (by cases hm),
      fun _ => rfl⟩
  | bool b =>
    exact ⟨fun h => (by simp [Json.tag] at h), fun m hm => (by cases hm),
      fun _ => rfl⟩
  | str s =>
    exact ⟨fun h => (by simp [Json.tag] at h), fun m hm => (by cases hm),
      fun _ => rfl⟩
  | array es =>
    exact ⟨fun h => (by simp [Json.tag] at h), fun m hm => (by cases hm),
      fun _ => rfl⟩
  | object ms =>
    exact ⟨fun h => (by simp [Json.tag] at h), fun m hm => (by cases hm),
      fun _ => rfl⟩

/-- Claim C4 witness: asDouble at an integer, a double and a string node. -/
theorem asDouble_by_tag_witness :
    PlannerDomValue.asDouble (Json.int 3) = .ok ((3 : Int) : Rat) ∧
    PlannerDomValue.asDouble (Json.str "x") = .error .typeMismatch :=
  ⟨(asDouble_by_tag (Json.int 3)).2.1 3 rfl,
   (asDouble_by_tag (Json.str "x")).2.2 (Or.inl rfl)⟩

/-- Claim C5: an integer node whose value fits the signed 32-bit range is
returned exactly by asInt; one whose value lies outside that range makes
asInt fail with TypeMismatch; asInt64 succeeds on every integer node and
returns the value, widening 32-bit values. -/
theorem asInt_asInt64_range (n : Int) :
    (fitsInt32 n = true → PlannerDomValue.asInt (Json.int n) = .ok n) ∧
    (fitsInt32 n = false →
      PlannerDomValue.asInt (Json.int n) = .error .typeMismatch) ∧
    PlannerDomValue.asInt64 (Json.int n) = .ok n := by
  refine ⟨fun h => ?_, fun h => ?_, rfl⟩ <;>
    simp [PlannerDomValue.asInt, Json.isNull, Json.isInt, Json.asInt, h]

/-- Claim C5 witness: asInt and asInt64 at 3 and at 2147483648. -/
theorem asInt_asInt64_range_witness :
    PlannerDomValue.asInt (Json.int 3) = .ok 3 ∧
    PlannerDomValue.asInt (Json.int 2147483648) = .error .typeMismatch ∧
    PlannerDomValue.asInt64 (Json.int 2147483648) = .ok 2147483648 :=
  ⟨(asInt_asInt64_range 3).1 (by decide),
   (asInt_asInt64_range 2147483648).2.1 (by decide),
   (asInt_asInt64_range 2147483648).2.2⟩

/-- Claim C3: for every node and every key, valueForKey succeeds
(returning a view of the child) exactly when hasNonNullKey is true, and
in every other case (key absent, or present but mapped to JSON null, the
two being indistinguishable to the lookup) fails with MissingKey. -/
theorem valueForKey_iff_hasNonNullKey (v : Json) (k : String) :
    ((∃ c, PlannerDomValue.valueForKey v k = .ok c) ↔
      PlannerDomValue.hasNonNullKey v k = true) ∧
    (PlannerDomValue.hasNonNullKey v k = false →
      PlannerDomValue.valueForKey v k = .error .missingKey) := by
  rw [PlannerDomValue.hasNonNullKey_eq]
  unfold PlannerDomValue.valueForKey
  cases hn : (v.lookupKey k).isNull <;> simp [hn]

/-- Claim C3 witness: a key present but mapped to null makes valueForKey
fail with MissingKey. -/
theorem valueForKey_iff_hasNonNullKey_witness :
    PlannerDomValue.valueForKey (Json.object [("a", Json.null)]) "a" =
      .error .missingKey :=
  (valueForKey_iff_hasNonNullKey (Json.object [("a", Json.null)]) "a").2 rfl

/-- Claim C6: hasKey is true exactly when the node is an object in which
the key appears (even mapped to null), is false on every non-object node,
and hasNonNullKey is true exactly when hasKey is true and the value mapped
to the key is not the JSON null; both return a boolean and never fail. -/
theorem hasKey_hasNonNullKey_spec (v : Json) (k : String) :
    (PlannerDomValue.hasKey v k = true ↔
      ∃ ms, v = Json.object ms ∧ ∃ c, (k, c) ∈ ms) ∧
    (v.isObject = false → PlannerDomValue.hasKey v k = false) ∧
    (PlannerDomValue.hasNonNullKey v k = true ↔
      PlannerDomValue.hasKey v k = true ∧ (v.lookupKey k).isNull = false) := by
  refine ⟨?_, ?_, ?_⟩
  · cases v <;>
      simp [PlannerDomValue.hasKey, Json.isMember, List.any_eq_true]
  · intro h
    cases v <;> first | rfl | (simp [Json.isObject] at h)
  · rw [PlannerDomValue.hasNonNullKey_eq]
    cases hk : PlannerDomValue.hasKey v k with
    | false =>
        simp [PlannerDomValue.lookupKey_eq_null_of_hasKey_false v k hk,
          Json.isNull]
    | true => simp

/-- Claim C6 witness: hasKey on a non-object node is false, and on objects
it reflects key presence while hasNonNullKey also tests the child. -/
theorem hasKey_hasNonNullKey_spec_witness :
    PlannerDomValue.hasKey (Json.int 3) "a" = false ∧
    (PlannerDomValue.hasNonNullKey (Json.object [("a", Json.null)]) "a" = true ↔
      PlannerDomValue.hasKey (Json.object [("a", Json.null)]) "a" = true ∧
      ((Json.object [("a", Json.null)]).lookupKey "a").isNull = false) :=
  ⟨(hasKey_hasNonNullKey_spec (Json.int 3) "a").2.1 rfl,
   (hasKey_hasNonNullKey_spec (Json.object [("a", Json.null)]) "a").2.2⟩

/-- Claim C8: arrayLen on an array node returns exactly the element count;
on a node of any other tag both arrayLen and valueAtIndex (at every index)
fail with NotArray. -/
theorem arrayLen_valueAtIndex_tags (v : Json) :
    (∀ es, v = Json.array es → PlannerDomValue.arrayLen v = .ok es.length) ∧
    (v.tag ≠ .Array →
      PlannerDomValue.arrayLen v = .error .notArray ∧
      ∀ i, PlannerDomValue.valueAtIndex v i = .err .notArray) := by
  cases v <;>
    first
      | exact ⟨fun es2 h => (by cases h; rfl), fun h => absurd rfl h⟩
      | exact ⟨fun es h => (by cases h), fun _ => ⟨rfl, fun i => rfl⟩⟩

/-- Claim C8 witness: arrayLen at a one-element array and both operations
at an integer node. -/
theorem arrayLen_valueAtIndex_tags_witness :
    PlannerDomValue.arrayLen (Json.array [Json.bool true]) = .ok 1 ∧
    PlannerDomValue.arrayLen (Json.int 3) = .error .notArray ∧
    PlannerDomValue.valueAtIndex (Json.int 3) 0 = .err .notArray :=
  ⟨(arrayLen_valueAtIndex_tags (Json.array [Json.bool true])).1
      [Json.bool true] rfl,
   ((arrayLen_valueAtIndex_tags (Json.int 3)).2 (by decide)).1,
   ((arrayLen_valueAtIndex_tags (Json.int 3)).2 (by decide)).2 0⟩

/-- Claim C2 counterexample: an out-of-range index on an array does not
fail with IndexOutOfRange (the source performs no bounds check; the
outcome is the undefined-behavior marker, not an error). -/
theorem valueAtIndex_oob_not_index_error :
    PlannerDomValue.valueAtIndex (Json.array [Json.bool true]) 5 ≠
      DomResult.err EEException.indexOutOfRange := by
  intro h
  have he : PlannerDomValue.valueAtIndex (Json.array [Json.bool true]) 5 =
      DomResult.unspecified := rfl
  rw [he] at h
  exact DomResult.noConfusion h

/-- Claim C2 as amended: on an array node, valueAtIndex at an index inside
the bounds returns a view of exactly that element; at an index outside
the bounds the source performs no bounds check, so the result is the
undefined-behavior outcome rather than an IndexOutOfRange failure. -/
theorem valueAtIndex_in_range_or_undef (es : List Json) (i : Int) :
    (∀ h : 0 ≤ i ∧ i.toNat < es.length,
      PlannerDomValue.valueAtIndex (Json.array es) i =
        .ok (es.get ⟨i.toNat, h.2⟩)) ∧
    ((i < 0 ∨ (es.length : Int) ≤ i) →
      PlannerDomValue.valueAtIndex (Json.array es) i = .unspecified) := by
  constructor
  · intro h
    simp only [PlannerDomValue.valueAtIndex]
    rw [dif_pos h]
  · intro h
    simp only [PlannerDomValue.valueAtIndex]
    rw [dif_neg]
    intro hc
    rcases hc with ⟨h0, hlt⟩
    rcases h with h | h <;> omega

/-- Claim C2 witness: index 1 of a two-element array returns the second
element; index 5 of a one-element array is the undefined outcome. -/
theorem valueAtIndex_in_range_or_undef_witness :
    PlannerDomValue.valueAtIndex (Json.array [Json.bool true, Json.int 7]) 1 =
      .ok (Json.int 7) ∧
    PlannerDomValue.valueAtIndex (Json.array [Json.bool true]) 5 = .unspecified :=
  ⟨(valueAtIndex_in_range_or_undef [Json.bool true, Json.int 7] 1).1
      ⟨by decide, by decide⟩,
   (valueAtIndex_in_range_or_undef [Json.bool true] 5).2 (Or.inr (by decide))⟩

/-- Claim C7: when the external parser rejects the input text the root
construction fails with ParseError and produces no tree; when it accepts,
construction returns a root owning the fully materialized tree and
rootObject on it is total, returning the whole document. -/
theorem construct_parse_spec (p : String → Option Json) (s : String) :
    (p s = none → PlannerDomRoot.construct p s = .error .parseError) ∧
    (∀ d, p s = some d →
      PlannerDomRoot.construct p s = .ok ⟨d⟩ ∧
      PlannerDomRoot.rootObject ⟨d⟩ = d) := by
  constructor
  · intro h
    simp [PlannerDomRoot.construct, h]
  · intro d h
    simp [PlannerDomRoot.construct, h, PlannerDomRoot.rootObject]

/-- Claim C7 witness: a failing parse and a succeeding parse of some
input. -/
theorem construct_parse_spec_witness :
    PlannerDomRoot.construct (fun _ => none) "x" = .error .parseError ∧
    PlannerDomRoot.construct (fun _ => some Json.null) "x" =
      .ok ⟨Json.null⟩ ∧
    PlannerDomRoot.rootObject ⟨Json.null⟩ = Json.null :=
  ⟨(construct_parse_spec (fun _ => none) "x").1 rfl,
   ((construct_parse_spec (fun _ => some Json.null) "x").2 Json.null rfl).1,
   ((construct_parse_spec (fun _ => some Json.null) "x").2 Json.null rfl).2⟩

/-- Claim C9 counterexample: valueForKey on an object lacking the key
throws MissingKey, and hasKey on the node as it stands after the call is
still false: no key is inserted by the failing lookup. -/
theorem valueForKey_missing_key_cex :
    (runOp (Json.object []) (DomOp.opValueForKey "k")).1 =
      DomOutcome.threw EEException.missingKey ∧
    PlannerDomValue.hasKey
      ((runOp (Json.object []) (DomOp.opValueForKey "k")).2) "k" = false :=
  ⟨rfl, rfl⟩

/-- Claim C9 as amended: valueForKey on an object that does not contain
the key raises MissingKey and leaves the tree unchanged, so a subsequent
hasKey on the same node still returns false. -/
theorem valueForKey_missing_leaves_key_absent
    (ms : List (String × Json)) (k : String)
    (h : PlannerDomValue.hasKey (Json.object ms) k = false) :
    (runOp (Json.object ms) (DomOp.opValueForKey k)).1 =
      DomOutcome.threw EEException.missingKey ∧
    (runOp (Json.object ms) (DomOp.opValueForKey k)).2 = Json.object ms ∧
    PlannerDomValue.hasKey
      ((runOp (Json.object ms) (DomOp.opValueForKey k)).2) k = false := by
  have hl := PlannerDomValue.lookupKey_eq_null_of_hasKey_false
    (Json.object ms) k h
  refine ⟨?_, rfl, h⟩
  simp [runOp, liftExcept, PlannerDomValue.valueForKey, hl, Json.isNull]

/-- Claim C9 witness: the empty object and an absent key. -/
theorem valueForKey_missing_leaves_key_absent_witness :
    (runOp (Json.object []) (DomOp.opValueForKey "a")).1 =
      DomOutcome.threw EEException.missingKey ∧
    (runOp (Json.object []) (DomOp.opValueForKey "a")).2 = Json.object [] ∧
    PlannerDomValue.hasKey
      ((runOp (Json.object []) (DomOp.opValueForKey "a")).2) "a" = false :=
  valueForKey_missing_leaves_key_absent [] "a" rfl

end VoltDom
